import Mathlib

/-!
Shallow embedding of the contractor project-management backend
(controllers `updateController.ts`, `requestController.ts`, the project
controller, and the mongoose models `Project`, `ProjectRequest`, `Update`,
`Attendance`).

Modelling conventions:
* ObjectIds are `Nat`; dates are `Int` (milliseconds since the Unix epoch).
* The document store is an explicit `DB` record of lists; mongoose
  `findById` / `findOne` are `List.find?`, `save` replaces the record with
  the same id, unique indexes are explicit membership checks.
* Fallible handlers return `DB × Option ApiError` (the new store and the
  error passed to the global error handler, `none` on success); read-only
  handlers return `Except ApiError` results.
* JavaScript truthiness of a request-body string is `s ≠ ""`; a request
  body field that may be `undefined` is an `Option`; an id-valued query
  parameter is an `IdParam` (absent / syntactically invalid / valid), since
  `Types.ObjectId.isValid` is checked before the value is used.
* `Date.setUTCHours(0,0,0,0)` is flooring to a multiple of 86400000 ms;
  the attendance pre-save hook uses local-time `setHours(0,0,0,0)`, which
  is modelled with an explicit fixed server-timezone offset `tz` (in ms,
  local = UTC + tz); a server clock in UTC is `tz ≡ 0 [ZMOD 86400000]`.
* The `createdAt` sort and mongoose `populate` joins only reorder or
  decorate responses and are not modelled; pagination (`skip`/`limit`) is.
-/

namespace Contractor

abbrev Id := Nat

/-- Project status enum from `src/models/Project.ts`. -/
inductive ProjectStatus
  | planning
  | in_progress
  | on_hold
  | completed
  | cancelled
deriving DecidableEq, Repr

/-- Request type enum from `src/models/ProjectRequest.ts`. -/
inductive RequestType
  | completion
  | extension
deriving DecidableEq, Repr

/-- Request status enum from `src/models/ProjectRequest.ts`. -/
inductive RequestStatus
  | pending
  | approved
  | rejected
deriving DecidableEq, Repr

/-- Update type enum from `src/models/Update.ts`. -/
inductive UpdateType
  | morning
  | evening
deriving DecidableEq, Repr

/-- User role enum from `src/models/User.ts`. -/
inductive UserRole
  | developer
  | admin
  | accounts
  | contractor
  | member
deriving DecidableEq, Repr

/-- A user record (only the fields the modelled handlers consult). -/
structure User where
  id : Id
  role : UserRole
deriving DecidableEq, Repr

/-- The authenticated `req.user` payload set by the auth middleware. -/
structure AuthUser where
  id : Id
  role : UserRole
deriving DecidableEq, Repr

/-- A project document (`src/models/Project.ts`). -/
structure Project where
  id : Id
  name : String
  description : String
  adminId : Id
  contractorId : Option Id
  status : ProjectStatus
  startDate : Option Int
  endDate : Option Int
  budget : Option Int
  location : Option String
deriving DecidableEq, Repr

/-- A team document: `projectId`, `contractorId` and a member list. -/
structure Team where
  id : Id
  projectId : Id
  contractorId : Id
  members : List Id
deriving DecidableEq, Repr

/-- An update document (`src/models/Update.ts`); `documents` is kept as
its length, which is all the handlers inspect. -/
structure Update where
  id : Id
  projectId : Id
  contractorId : Id
  postedBy : Id
  updateType : UpdateType
  statusText : String
  updateDate : Int
  timestamp : Int
  docCount : Nat
deriving DecidableEq, Repr

/-- An attendance document (`Attendance` model, part_007). -/
structure Attendance where
  id : Id
  userId : Id
  projectId : Id
  date : Int
  morningUpdateId : Option Id
  eveningUpdateId : Option Id
  isPresent : Bool
deriving DecidableEq, Repr

/-- A project request document (`src/models/ProjectRequest.ts`). -/
structure ProjectRequest where
  id : Id
  projectId : Id
  requestedBy : Id
  type : RequestType
  status : RequestStatus
  requestedEndDate : Option Int
  approvedEndDate : Option Int
  reason : Option String
  adminNotes : Option String
  reviewedBy : Option Id
  reviewedAt : Option Int
deriving DecidableEq, Repr

/-- The document store: one list per mongoose collection. -/
structure DB where
  users : List User
  projects : List Project
  teams : List Team
  updates : List Update
  attendances : List Attendance
  requests : List ProjectRequest
deriving DecidableEq, Repr

/-- Domain errors (`src/utils/errors.ts`) plus the two storage-level error
shapes the global handler distinguishes (`formatErrorResponse`): a mongoose
duplicate-key error (code 11000) and the 500 fallback. -/
inductive ApiError
  | validation (msg : String)
  | notFound (resource : String)
  | unauthorized (msg : String)
  | forbidden (msg : String)
  | duplicateKey (field : String)
  | internal (msg : String)
deriving DecidableEq, Repr

/-- Status code attached by `formatErrorResponse` in `src/utils/errors.ts`
and `errorHandler.ts`: 400 / 404 / 401 / 403, 409 for code 11000, 500
otherwise. -/
def ApiError.statusCode : ApiError → Nat
  | .validation _ => 400
  | .notFound _ => 404
  | .unauthorized _ => 401
  | .forbidden _ => 403
  | .duplicateKey _ => 409
  | .internal _ => 500

/-- An id-valued request parameter: absent, present but failing
`Types.ObjectId.isValid`, or a valid id. -/
inductive IdParam
  | absent
  | givenInvalid
  | givenValid (id : Id)
deriving DecidableEq, Repr

/-- A date-valued body field: absent, present but parsing to `NaN`, or a
valid timestamp. -/
inductive DateInput
  | absent
  | invalid
  | valid (t : Int)
deriving DecidableEq, Repr

/-- The `updateType` body field before validation. -/
inductive UTInput
  | missing
  | invalid
  | valid (ut : UpdateType)
deriving DecidableEq, Repr

/-- Milliseconds per day. -/
def msPerDay : Int := 86400000

/-- `normalizeDate` in `updateController.ts`: `setUTCHours(0,0,0,0)`,
i.e. floor to the enclosing UTC day. -/
def normalizeDate (d : Int) : Int := d - d.emod msPerDay

/-- `setHours(0,0,0,0)` in the attendance pre-save hook: floor to the
enclosing day of the server-local calendar, for a fixed offset `tz`
(local = UTC + tz, in ms). -/
def setHoursStartOfDay (tz d : Int) : Int :=
  (d + tz) - (d + tz).emod msPerDay - tz

/-- Record lookups (mongoose `findById`). -/
def findProject (db : DB) (pid : Id) : Option Project :=
  db.projects.find? (fun p => p.id == pid)

def findRequest (db : DB) (rid : Id) : Option ProjectRequest :=
  db.requests.find? (fun r => r.id == rid)

def findUpdateDoc (db : DB) (uid : Id) : Option Update :=
  db.updates.find? (fun u => u.id == uid)

/-- `save` on a fetched document: replace the record with the same id. -/
def saveProject (db : DB) (p : Project) : DB :=
  { db with projects := db.projects.map (fun q => if q.id == p.id then p else q) }

def saveRequest (db : DB) (r : ProjectRequest) : DB :=
  { db with requests := db.requests.map (fun q => if q.id == r.id then r else q) }

def saveAttendanceDoc (db : DB) (a : Attendance) : DB :=
  { db with attendances := db.attendances.map (fun q => if q.id == a.id then a else q) }

/-- The attendance half matching an update type. -/
def Attendance.half (a : Attendance) : UpdateType → Option Id
  | .morning => a.morningUpdateId
  | .evening => a.eveningUpdateId

/-- The opposite half. -/
def UpdateType.other : UpdateType → UpdateType
  | .morning => .evening
  | .evening => .morning

/-- The attendance pre-save hook (part_007, lines 62-73): re-normalize the
date with local-time `setHours(0,0,0,0)` and recompute
`isPresent = !!(morningUpdateId && eveningUpdateId)`. -/
def attendancePreSave (tz : Int) (a : Attendance) : Attendance :=
  { a with
    date := setHoursStartOfDay tz a.date
    isPresent := a.morningUpdateId.isSome && a.eveningUpdateId.isSome }

/-- `isUserInProjectTeam` in `updateController.ts`: the project contractor
is a member; otherwise any team of the project whose contractor or member
list contains the user qualifies. -/
def isUserInProjectTeam (db : DB) (userId projectId : Id) :
    Except ApiError (Bool × Option Id) :=
  match findProject db projectId with
  | none => .error (.notFound "Project")
  | some project =>
    if project.contractorId = some userId then
      .ok (true, project.contractorId)
    else
      match db.teams.find? (fun t =>
          t.projectId == projectId &&
            (t.contractorId == userId || t.members.contains userId)) with
      | some team => .ok (true, some team.contractorId)
      | none => .ok (false, none)

/-- The duplicate pre-check filter of `createUpdate` (lines 407-412) and
the unique index of `UpdateSchema` (part_010):
`(postedBy, projectId, updateDate, updateType)`. -/
def updateKeyMatches (postedBy projectId : Id) (updateDate : Int)
    (updateType : UpdateType) (u : Update) : Bool :=
  u.postedBy == postedBy && u.projectId == projectId &&
    u.updateDate == updateDate && u.updateType == updateType

/-- `Update.create`: the unique index on
`(postedBy, projectId, updateDate, updateType)` rejects a second document
with the same key with a mongoose duplicate-key error (code 11000, mapped
to 409 by `formatErrorResponse`); otherwise the document is appended. -/
def insertUpdate (db : DB) (u : Update) : Except ApiError DB :=
  if db.updates.any (updateKeyMatches u.postedBy u.projectId u.updateDate u.updateType) then
    .error (.duplicateKey "postedBy")
  else
    .ok { db with updates := db.updates ++ [u] }

/-- The `findOneAndUpdate` filter of the attendance derivation:
`(userId, projectId, date)`, the fields of the unique index of
`AttendanceSchema` (part_007, line 80). -/
def attKeyMatches (userId projectId : Id) (date : Int) (a : Attendance) : Bool :=
  a.userId == userId && a.projectId == projectId && a.date == date

/-- The `$set` document of the attendance upsert: the key fields and the
half matching the update type. -/
def upsertDoc (uid pid : Id) (d : Int) (ut : UpdateType) (updId : Id)
    (a : Attendance) : Attendance :=
  match ut with
  | .morning => { a with userId := uid, projectId := pid, date := d
                         morningUpdateId := some updId }
  | .evening => { a with userId := uid, projectId := pid, date := d
                         eveningUpdateId := some updId }

/-- The document the upsert inserts when no record matches the filter
(`isPresent` has schema default `false`). -/
def freshAttendance (fa uid pid : Id) (d : Int) : Attendance :=
  { id := fa, userId := uid, projectId := pid, date := d
    morningUpdateId := none, eveningUpdateId := none, isPresent := false }

/-- The attendance derivation in `createUpdate` (lines 455-479):
`Attendance.findOneAndUpdate` keyed on `(userId, projectId, date)` with
`upsert: true` persists its `$set` (or insert) first and runs no
document middleware; the following `attendance.save()` runs the pre-save
hook (which may move `date` to the server-local start of day) and then
persists the changed paths, where the unique index on
`(userId, projectId, date)` (part_007, line 80) rejects a date moved
onto another record's key with a duplicate-key error (code 11000,
mapped to 409). On that failure the upsert's write remains persisted.
`freshAttId` is the id mongoose assigns if the upsert inserts. -/
def deriveAttendance (tz : Int) (freshAttId : Id) (userId projectId : Id)
    (date : Int) (ut : UpdateType) (updId : Id) (db : DB) :
    DB × Option ApiError :=
  match db.attendances.find? (attKeyMatches userId projectId date) with
  | some a =>
      let a1 := upsertDoc userId projectId date ut updId a
      let db1 := saveAttendanceDoc db a1
      let hooked := attendancePreSave tz a1
      if db1.attendances.any (fun q =>
          q.id != a1.id &&
            attKeyMatches hooked.userId hooked.projectId hooked.date q) then
        (db1, some (.duplicateKey "userId"))
      else
        (saveAttendanceDoc db1 hooked, none)
  | none =>
      let inserted := upsertDoc userId projectId date ut updId
        (freshAttendance freshAttId userId projectId date)
      let db1 := { db with attendances := db.attendances ++ [inserted] }
      let hooked := attendancePreSave tz inserted
      if db1.attendances.any (fun q =>
          q.id != inserted.id &&
            attKeyMatches hooked.userId hooked.projectId hooked.date q) then
        (db1, some (.duplicateKey "userId"))
      else
        (saveAttendanceDoc db1 hooked, none)

/-- The request body of `POST /updates`. `docs` stands for the combined
document-processing pipeline (`normalizeDocumentsPayload`,
`buildDocumentsFromUploads`): `none` when that pipeline throws a
`ValidationError`, `some n` when it yields `n` documents. -/
structure CreateUpdateBody where
  projectId : IdParam
  updateType : UTInput
  statusText : String
  updateDate : DateInput
  docs : Option Nat
deriving DecidableEq, Repr

/-- `createUpdate` in `updateController.ts` (lines 347-492). `now` is the
server clock, `tz` the server timezone offset, `freshUpdId` /
`freshAttId` the ids mongoose assigns to inserted documents. -/
def createUpdate (tz now : Int) (freshUpdId freshAttId : Id)
    (user : Option AuthUser) (body : CreateUpdateBody) (db : DB) :
    DB × Option ApiError :=
  match user with
  | none => (db, some (.validation "User information is required"))
  | some user =>
    -- `if (!projectId || !updateType || !status)`
    if body.projectId = .absent ∨ body.updateType = .missing ∨ body.statusText = "" then
      (db, some (.validation "Project ID, update type, and status are required"))
    else if body.projectId = .givenInvalid then
      (db, some (.validation "Project ID must be a valid identifier"))
    else
      match body.projectId with
      | .absent => (db, some (.validation "Project ID, update type, and status are required"))
      | .givenInvalid => (db, some (.validation "Project ID must be a valid identifier"))
      | .givenValid projectId =>
        match body.updateType with
        | .missing => (db, some (.validation "Project ID, update type, and status are required"))
        | .invalid => (db, some (.validation "Update type must be either morning or evening"))
        | .valid updateType =>
          match findProject db projectId with
          | none => (db, some (.notFound "Project"))
          | some project =>
            if project.status ≠ ProjectStatus.in_progress then
              (db, some (.validation "Updates can only be posted for projects in progress"))
            else
              match isUserInProjectTeam db user.id projectId with
              | .error e => (db, some e)
              | .ok (isMember, contractorIdOpt) =>
                if ¬ isMember ∨ contractorIdOpt = none then
                  (db, some (.forbidden "You must be a member of the project team to post updates"))
                else
                  match body.updateDate with
                  | .invalid => (db, some (.validation "Update date must be a valid date"))
                  | dateIn =>
                    let parsedUpdateDate : Int :=
                      match dateIn with
                      | .valid t => t
                      | _ => now
                    let normalizedDate := normalizeDate parsedUpdateDate
                    if db.updates.any
                        (updateKeyMatches user.id projectId normalizedDate updateType) then
                      (db, some (.validation "You have already posted this update type for this project today"))
                    else
                      match body.docs with
                      | none => (db, some (.validation "Documents payload is invalid"))
                      | some docCount =>
                        if docCount = 0 then
                          (db, some (.validation "At least one image or document is required for each update"))
                        else
                          let contractorId := contractorIdOpt.getD 0
                          let upd : Update :=
                            { id := freshUpdId, projectId, contractorId
                              postedBy := user.id, updateType
                              statusText := body.statusText
                              updateDate := normalizedDate, timestamp := now
                              docCount }
                          match insertUpdate db upd with
                          | .error e => (db, some e)
                          | .ok db1 =>
                            -- the update is already persisted; an error
                            -- thrown by attendance.save() propagates to the
                            -- global error handler
                            deriveAttendance tz freshAttId user.id projectId
                              normalizedDate updateType freshUpdId db1

/-! ### Request workflow (`requestController.ts`) -/

/-- `createCompletionRequest` (lines 12-79). `freshReqId` is the id
mongoose assigns to the inserted request. -/
def createCompletionRequest (freshReqId : Id) (user : Option AuthUser)
    (projectIdIn : IdParam) (reason : Option String) (db : DB) :
    DB × Option ApiError :=
  match user with
  | none => (db, some (.validation "User information is required"))
  | some user =>
    if user.role ≠ UserRole.contractor then
      (db, some (.forbidden "Only contractors can create completion requests"))
    else
      match projectIdIn with
      | .absent => (db, some (.validation "Project ID is required"))
      | .givenInvalid => (db, some (.validation "Invalid project ID format"))
      | .givenValid projectId =>
        match findProject db projectId with
        | none => (db, some (.notFound "Project"))
        | some project =>
          if project.contractorId ≠ some user.id then
            (db, some (.forbidden "You can only create completion requests for projects assigned to you"))
          else if project.status ≠ ProjectStatus.in_progress then
            (db, some (.validation "Completion requests can only be created for projects in progress"))
          else if db.requests.any (fun r =>
              r.projectId == projectId && r.type == RequestType.completion &&
                r.status == RequestStatus.pending) then
            (db, some (.validation "A pending completion request already exists for this project"))
          else
            ({ db with requests := db.requests ++
                [{ id := freshReqId, projectId, requestedBy := user.id
                   type := .completion, status := .pending
                   requestedEndDate := none, approvedEndDate := none
                   reason, adminNotes := none
                   reviewedBy := none, reviewedAt := none }] }, none)

/-- `createExtensionRequest` (lines 84-165). -/
def createExtensionRequest (freshReqId : Id) (user : Option AuthUser)
    (projectIdIn : IdParam) (requestedEndDate : DateInput)
    (reason : Option String) (db : DB) : DB × Option ApiError :=
  match user with
  | none => (db, some (.validation "User information is required"))
  | some user =>
    if user.role ≠ UserRole.contractor then
      (db, some (.forbidden "Only contractors can create extension requests"))
    else if projectIdIn = .absent ∨ requestedEndDate = .absent then
      (db, some (.validation "Project ID and requested end date are required"))
    else
      match projectIdIn with
      | .absent => (db, some (.validation "Project ID and requested end date are required"))
      | .givenInvalid => (db, some (.validation "Invalid project ID format"))
      | .givenValid projectId =>
        match requestedEndDate with
        | .absent => (db, some (.validation "Project ID and requested end date are required"))
        | .invalid => (db, some (.validation "Requested end date must be a valid date"))
        | .valid parsedEndDate =>
          match findProject db projectId with
          | none => (db, some (.notFound "Project"))
          | some project =>
            if project.contractorId ≠ some user.id then
              (db, some (.forbidden "You can only create extension requests for projects assigned to you"))
            else if project.status ≠ ProjectStatus.in_progress then
              (db, some (.validation "Extension requests can only be created for projects in progress"))
            -- `if (project.endDate && parsedEndDate <= project.endDate)`
            else if (project.endDate.map (fun d => decide (parsedEndDate ≤ d))).getD false then
              (db, some (.validation "Requested end date must be after the current project end date"))
            else if db.requests.any (fun r =>
                r.projectId == projectId && r.type == RequestType.extension &&
                  r.status == RequestStatus.pending) then
              (db, some (.validation "A pending extension request already exists for this project"))
            else
              ({ db with requests := db.requests ++
                  [{ id := freshReqId, projectId, requestedBy := user.id
                     type := .extension, status := .pending
                     requestedEndDate := some parsedEndDate
                     approvedEndDate := none
                     reason, adminNotes := none
                     reviewedBy := none, reviewedAt := none }] }, none)

/-- The query of `GET /requests`. -/
structure GetRequestsQuery where
  projectId : IdParam
  status : Option RequestStatus
  type : Option RequestType
  requestedBy : IdParam
  page : Option Nat
  limit : Option Nat
deriving DecidableEq, Repr

/-- The mongo filter object `getRequests` builds. -/
structure RequestFilter where
  projectId : Option Id
  status : Option RequestStatus
  type : Option RequestType
  requestedBy : Option Id
deriving DecidableEq, Repr

/-- Whether a request document matches the filter. -/
def requestMatches (f : RequestFilter) (r : ProjectRequest) : Bool :=
  (f.projectId.map (fun v => r.projectId == v)).getD true &&
    (f.status.map (fun v => r.status == v)).getD true &&
    (f.type.map (fun v => r.type == v)).getD true &&
    (f.requestedBy.map (fun v => r.requestedBy == v)).getD true

/-- `parseInt(x) || 1` for the page number and `parseInt(x) || 10` for the
limit: `0` and `NaN` are falsy, so absent or zero falls back. -/
def pageOr (fallback : Nat) : Option Nat → Nat
  | none => fallback
  | some n => if n = 0 then fallback else n

/-- `getRequests` (lines 170-237). The `createdAt` sort only reorders the
page and is not modelled; pagination is `drop skip` then `take limit`. -/
def getRequests (user : Option AuthUser) (q : GetRequestsQuery) (db : DB) :
    Except ApiError (List ProjectRequest) :=
  match q.projectId with
  | .givenInvalid => .error (.validation "Invalid project ID format")
  | projectIdIn =>
    match q.requestedBy with
    | .givenInvalid => .error (.validation "Invalid requested by user ID format")
    | requestedByIn =>
      let filter0 : RequestFilter :=
        { projectId := match projectIdIn with
            | .givenValid v => some v
            | _ => none
          status := q.status
          type := q.type
          requestedBy := match requestedByIn with
            | .givenValid v => some v
            | _ => none }
      -- Contractors can only see their own requests
      let filter :=
        if (user.map (fun u => u.role == UserRole.contractor)).getD false then
          { filter0 with requestedBy := user.map (fun u => u.id) }
        else filter0
      let pageNum := pageOr 1 q.page
      let limitNum := pageOr 10 q.limit
      let skip := (pageNum - 1) * limitNum
      .ok (((db.requests.filter (requestMatches filter)).drop skip).take limitNum)

/-- The persist points of `approveRequest` / `rejectRequest`, used to
model a storage failure between the two writes. -/
inductive SaveStep
  | projectSave
  | requestSave
deriving DecidableEq, Repr

/-- `approveRequest` (lines 242-324). The handler mutates the fetched
request in memory, then — for a completion request — sets the project
status and calls `project.save()`, or — for an extension request —
validates and sets the end date and calls `project.save()`, and only
afterwards calls `request.save()`. `failAt` injects a storage failure at
the named save: the save throws, nothing later runs, and everything not
yet saved stays unpersisted (the 500 fallback of the error handler). -/
def approveRequest (failAt : Option SaveStep) (now : Int)
    (user : Option AuthUser) (reqId : Id) (approvedEndDate : DateInput)
    (adminNotes : Option String) (db : DB) : DB × Option ApiError :=
  match user with
  | none => (db, some (.validation "User information is required"))
  | some user =>
    if user.role ≠ UserRole.admin then
      (db, some (.forbidden "Only admins can approve requests"))
    else
      match findRequest db reqId with
      | none => (db, some (.notFound "Request"))
      | some request =>
        if request.status ≠ RequestStatus.pending then
          (db, some (.validation "Request is already resolved"))
        else
          match findProject db request.projectId with
          | none => (db, some (.notFound "Project"))
          | some project =>
            let request1 : ProjectRequest :=
              { request with
                status := .approved
                reviewedBy := some user.id
                reviewedAt := some now
                adminNotes := match adminNotes with
                  | some s => some s
                  | none => request.adminNotes }
            match request.type with
            | .completion =>
              let project1 := { project with status := ProjectStatus.completed }
              if failAt = some SaveStep.projectSave then
                (db, some (.internal "project save failed"))
              else
                let db1 := saveProject db project1
                if failAt = some SaveStep.requestSave then
                  (db1, some (.internal "request save failed"))
                else
                  (saveRequest db1 request1, none)
            | .extension =>
              match approvedEndDate with
              | .invalid => (db, some (.validation "Approved end date must be a valid date"))
              | aedIn =>
                let endDateToUse : Option Int :=
                  match aedIn with
                  | .valid t => some t
                  | _ => request.requestedEndDate
                -- `if (project.endDate && parsedApprovedDate <= project.endDate)`
                if (match aedIn with
                    | .valid t => (project.endDate.map (fun d => decide (t ≤ d))).getD false
                    | _ => false) then
                  (db, some (.validation "Approved end date must be after the current project end date"))
                else
                  match endDateToUse with
                  | none => (db, some (.validation "End date is required for extension approval"))
                  | some endDate =>
                    let project1 := { project with endDate := some endDate }
                    let request2 := { request1 with approvedEndDate := some endDate }
                    if failAt = some SaveStep.projectSave then
                      (db, some (.internal "project save failed"))
                    else
                      let db1 := saveProject db project1
                      if failAt = some SaveStep.requestSave then
                        (db1, some (.internal "request save failed"))
                      else
                        (saveRequest db1 request2, none)

/-- `rejectRequest` (lines 329-385): marks the request rejected; for a
completion request whose project status is no longer `in_progress`, sets
the project back to `in_progress` and saves it; then saves the request. -/
def rejectRequest (now : Int) (user : Option AuthUser) (reqId : Id)
    (adminNotes : Option String) (db : DB) : DB × Option ApiError :=
  match user with
  | none => (db, some (.validation "User information is required"))
  | some user =>
    if user.role ≠ UserRole.admin then
      (db, some (.forbidden "Only admins can reject requests"))
    else
      match findRequest db reqId with
      | none => (db, some (.notFound "Request"))
      | some request =>
        if request.status ≠ RequestStatus.pending then
          (db, some (.validation "Request is already resolved"))
        else
          match findProject db request.projectId with
          | none => (db, some (.notFound "Project"))
          | some project =>
            let request1 : ProjectRequest :=
              { request with
                status := .rejected
                reviewedBy := some user.id
                reviewedAt := some now
                adminNotes := match adminNotes with
                  | some s => some s
                  | none => request.adminNotes }
            let db1 :=
              if request.type = RequestType.completion ∧
                  project.status ≠ ProjectStatus.in_progress then
                saveProject db { project with status := ProjectStatus.in_progress }
              else db
            (saveRequest db1 request1, none)

/-! ### Project controller (part_001 of the unnamed sources) -/

/-- `hasPendingRequests`: any request of the project with status
`pending`. -/
def hasPendingRequests (db : DB) (projectId : Id) : Bool :=
  db.requests.any (fun r => r.projectId == projectId && r.status == RequestStatus.pending)

/-- The query of `GET /projects`. -/
structure GetProjectsQuery where
  status : Option ProjectStatus
  contractorId : Option Id
  adminId : Option Id
  page : Option Nat
  limit : Option Nat
deriving DecidableEq, Repr

/-- The mongo filter object `getAllProjects` builds. -/
structure ProjectFilter where
  status : Option ProjectStatus
  contractorId : Option Id
  adminId : Option Id
  idIn : Option (List Id)
deriving DecidableEq, Repr

/-- Whether a project document matches the filter. -/
def projectMatches (f : ProjectFilter) (p : Project) : Bool :=
  (f.status.map (fun v => p.status == v)).getD true &&
    (f.contractorId.map (fun v => p.contractorId == some v)).getD true &&
    (f.adminId.map (fun v => p.adminId == v)).getD true &&
    (f.idIn.map (fun l => l.contains p.id)).getD true

/-- `getAllProjects` (part_001, lines 135-202): contractors are restricted
to `contractorId = caller`; members to the `$in` of the project ids of
teams whose `members` contain the caller, with an early empty response
when the caller is in no team. The `createdAt` sort is not modelled. -/
def getAllProjects (user : Option AuthUser) (q : GetProjectsQuery) (db : DB) :
    Except ApiError (List Project) :=
  let filter0 : ProjectFilter :=
    { status := q.status, contractorId := q.contractorId
      adminId := q.adminId, idIn := none }
  let filter1 :=
    if (user.map (fun u => u.role == UserRole.contractor)).getD false then
      { filter0 with contractorId := user.map (fun u => u.id) }
    else filter0
  if (user.map (fun u => u.role == UserRole.member)).getD false then
    let uid := (user.map (fun u => u.id)).getD 0
    let projectIds := (db.teams.filter (fun t => t.members.contains uid)).map (fun t => t.projectId)
    if projectIds.isEmpty then
      .ok []
    else
      let filter := { filter1 with idIn := some projectIds }
      let pageNum := pageOr 1 q.page
      let limitNum := pageOr 10 q.limit
      .ok (((db.projects.filter (projectMatches filter)).drop ((pageNum - 1) * limitNum)).take limitNum)
  else
    let pageNum := pageOr 1 q.page
    let limitNum := pageOr 10 q.limit
    .ok (((db.projects.filter (projectMatches filter1)).drop ((pageNum - 1) * limitNum)).take limitNum)

/-- `getProjectById` (part_001, lines 207-244): a contractor not assigned
to the project, or a member with no team of the project listing them,
gets the same `NotFoundError` as a nonexistent project id. -/
def getProjectById (user : Option AuthUser) (pid : Id) (db : DB) :
    Except ApiError Project :=
  match findProject db pid with
  | none => .error (.notFound "Project")
  | some project =>
    if (user.map (fun u => u.role == UserRole.contractor)).getD false ∧
        ¬ project.contractorId = user.map (fun u => u.id) then
      .error (.notFound "Project")
    else if (user.map (fun u => u.role == UserRole.member)).getD false ∧
        db.teams.find? (fun t =>
          t.projectId == pid && t.members.contains ((user.map (fun u => u.id)).getD 0)) = none then
      .error (.notFound "Project")
    else
      .ok project

/-- The request body of `POST /projects` and `PUT /projects/:id`.
`contractorId`: `none` is `undefined`, `some none` is `null` (or another
falsy value), `some (some v)` a provided id. -/
structure ProjectBody where
  name : Option String
  description : Option String
  contractorId : Option (Option Id)
  status : Option ProjectStatus
  startDate : Option Int
  endDate : Option Int
  budget : Option Int
  location : Option String
deriving DecidableEq, Repr

/-- JavaScript string truthiness of an optional body string. -/
def strTruthy : Option String → Bool
  | none => false
  | some s => s ≠ ""

/-- `createProject` (part_001, lines 249-292). The created document uses
`status: status || ProjectStatus.PLANNING`, so a caller-supplied status is
stored as given. `freshProjId` is the id mongoose assigns. The schema-level
`budget >= 0` validator of `Project.create` is included. -/
def createProject (freshProjId : Id) (user : Option AuthUser)
    (body : ProjectBody) (db : DB) : DB × Option ApiError :=
  if ¬ (strTruthy body.name ∧ strTruthy body.description) then
    (db, some (.validation "Project name and description are required"))
  else
    match user with
    | none => (db, some (.validation "User information is required"))
    | some user =>
      -- `if (contractorId)` - validate the referenced user has role contractor
      if (match body.contractorId with
          | some (some cid) =>
            (db.users.find? (fun u => u.id == cid && u.role == UserRole.contractor)).isNone
          | _ => false : Bool) then
        (db, some (.validation "Invalid contractor user"))
      else if (body.budget.map (fun b => decide (b < 0))).getD false then
        (db, some (.validation "Budget cannot be negative"))
      else
        ({ db with projects := db.projects ++
            [{ id := freshProjId
               name := (body.name.getD "")
               description := (body.description.getD "")
               adminId := user.id
               contractorId := match body.contractorId with
                 | some (some cid) => some cid
                 | _ => none
               status := body.status.getD ProjectStatus.planning
               startDate := body.startDate
               endDate := body.endDate
               budget := body.budget
               location := body.location }] }, none)

/-- `updateProject` (part_001, lines 297-355): the pending-request guard
runs only when a status is supplied and differs from the stored one; the
fields present in the body are then written with `findByIdAndUpdate`
(`runValidators` re-checks `budget >= 0`). -/
def updateProject (_user : Option AuthUser) (pid : Id) (body : ProjectBody)
    (db : DB) : DB × Option ApiError :=
  match findProject db pid with
  | none => (db, some (.notFound "Project"))
  | some existingProject =>
    if ((match body.status with
        | some s => decide (s ≠ existingProject.status)
        | none => false) && hasPendingRequests db pid : Bool) then
      (db, some (.validation "Cannot change project status while there are pending requests"))
    else if (match body.contractorId with
        | some (some cid) =>
          (db.users.find? (fun u => u.id == cid && u.role == UserRole.contractor)).isNone
        | _ => false : Bool) then
      (db, some (.validation "Invalid contractor user"))
    else if (body.budget.map (fun b => decide (b < 0))).getD false then
      (db, some (.validation "Budget cannot be negative"))
    else
      let updated : Project :=
        { existingProject with
          name := match body.name with
            | some s => if s ≠ "" then s else existingProject.name
            | none => existingProject.name
          description := match body.description with
            | some s => if s ≠ "" then s else existingProject.description
            | none => existingProject.description
          contractorId := match body.contractorId with
            | some v => v
            | none => existingProject.contractorId
          status := match body.status with
            | some s => s
            | none => existingProject.status
          startDate := match body.startDate with
            | some d => some d
            | none => existingProject.startDate
          endDate := match body.endDate with
            | some d => some d
            | none => existingProject.endDate
          budget := match body.budget with
            | some b => some b
            | none => existingProject.budget
          location := match body.location with
            | some l => some l
            | none => existingProject.location }
      (saveProject db updated, none)

/-! ### Invariants and fixtures -/

/-- The derived-presence invariant of the `Attendance` model: `isPresent`
equals the conjunction of the two halves being set. -/
def attPresentInv (db : DB) : Bool :=
  db.attendances.all (fun a =>
    a.isPresent == (a.morningUpdateId.isSome && a.eveningUpdateId.isSome))

/-- A set attendance half is backed by an update of the ledger with the
matching `(postedBy, projectId, updateDate, updateType)` key. -/
def halfBackedBy (db : DB) (a : Attendance) (ut : UpdateType) : Bool :=
  match a.half ut with
  | none => true
  | some i => db.updates.any (fun u =>
      u.id == i && u.postedBy == a.userId && u.projectId == a.projectId &&
        u.updateDate == a.date && u.updateType == ut)

/-- Every attendance half that is set is backed by a matching update. -/
def wfAttendance (db : DB) : Bool :=
  db.attendances.all (fun a => halfBackedBy db a .morning && halfBackedBy db a .evening)

/-- Project fixture: id 10, admin 1, contractor 2, in progress, ends at
day 5. -/
def projFix : Project :=
  { id := 10, name := "site", description := "main site"
    adminId := 1, contractorId := some 2
    status := .in_progress, startDate := some 0
    endDate := some (5 * msPerDay), budget := some 1000
    location := none }

/-- A one-project fixture: admin 1, contractor 2 assigned to project 10,
project in progress with end date day 5, no teams, empty ledgers. -/
def dbFix : DB :=
  { users := [{ id := 1, role := .admin }, { id := 2, role := .contractor }]
    projects := [projFix]
    teams := []
    updates := []
    attendances := []
    requests := [] }

/-- A pending completion request for project 10 by contractor 2. -/
def reqFix : ProjectRequest :=
  { id := 30, projectId := 10, requestedBy := 2
    type := .completion, status := .pending
    requestedEndDate := none, approvedEndDate := none
    reason := none, adminNotes := none
    reviewedBy := none, reviewedAt := none }

/-- `dbFix` with the pending completion request `reqFix`. -/
def dbFixPending : DB :=
  { dbFix with requests := [reqFix] }

/-- Replacing the (unique-id) document found by a `find?` over ids makes
the replacement the document found afterwards. -/
theorem find?_map_replace {α : Type} (idf : α → Id) (x : α) (pid : Id)
    (hx : idf x = pid) :
    ∀ l : List α, ((l.find? (fun q => idf q == pid)).isSome = true) →
      (l.map (fun q => if idf q == idf x then x else q)).find?
          (fun q => idf q == pid) = some x := by
  intro l
  induction l with
  | nil => simp
  | cons a l ih =>
    intro hfound
    by_cases ha : idf a = pid
    · have hcond : (idf a == idf x) = true := by simp [hx, ha]
      rw [List.map_cons, if_pos hcond, List.find?_cons_of_pos _ (by simp [hx])]
    · have h2 : ¬ (idf a == idf x) = true := by simp [hx, ha]
      rw [List.map_cons, if_neg h2, List.find?_cons_of_neg _ (by simp [ha])]
      apply ih
      rwa [List.find?_cons_of_neg _ (by simp [ha])] at hfound

def uAdmin : AuthUser := { id := 1, role := .admin }

def uContractor : AuthUser := { id := 2, role := .contractor }

/-- A create-project body that supplies `status: in_progress`. -/
def bodyInProgress : ProjectBody :=
  { name := some "annex", description := some "annex build"
    contractorId := none, status := some .in_progress
    startDate := none, endDate := none, budget := none, location := none }

/-! ### C9: project creation status -/

/-- C9 counterexample: an admin calling `createProject` with
`status: "in_progress"` in the body gets a project whose status is
`in_progress`, not `planning`, because the controller stores
`status || ProjectStatus.PLANNING`. -/
theorem createProject_caller_status_stored :
    (createProject 11 (some uAdmin) bodyInProgress dbFix).snd = none ∧
    ((createProject 11 (some uAdmin) bodyInProgress dbFix).fst.projects.map
        (fun p => (p.id, p.status))).contains (11, ProjectStatus.in_progress) = true ∧
    ProjectStatus.in_progress ≠ ProjectStatus.planning :=
  ⟨rfl, rfl, by decide⟩

/-- C9 (amended): a project created via `createProject` has status
`planning` exactly when the request body supplied no status; a
caller-supplied status is stored as given
(`status: status || ProjectStatus.PLANNING`). -/
theorem createProject_status_defaults_to_planning
    (freshProjId : Id) (user : AuthUser) (body : ProjectBody) (db db' : DB)
    (h : createProject freshProjId (some user) body db = (db', none)) :
    ∃ p, db'.projects = db.projects ++ [p] ∧ p.id = freshProjId ∧
      p.adminId = user.id ∧ p.status = body.status.getD ProjectStatus.planning := by
  unfold createProject at h
  repeat' split at h
  all_goals simp_all
  all_goals subst h
  all_goals exact ⟨_, rfl, rfl, rfl, rfl⟩

/-- C9 witness: the amended theorem at a concrete body with no status. -/
theorem createProject_status_defaults_to_planning_app :
    createProject 11 (some uAdmin)
        { bodyInProgress with status := none } dbFix =
      ((createProject 11 (some uAdmin)
        { bodyInProgress with status := none } dbFix).fst, none) ∧
    ∃ p, (createProject 11 (some uAdmin)
        { bodyInProgress with status := none } dbFix).fst.projects =
          dbFix.projects ++ [p] ∧ p.id = 11 ∧ p.adminId = uAdmin.id ∧
      p.status = (({ bodyInProgress with status := none } : ProjectBody).status.getD
        ProjectStatus.planning) :=
  ⟨rfl, createProject_status_defaults_to_planning 11 uAdmin
    { bodyInProgress with status := none } dbFix _ rfl⟩

/-! ### C8: extension requests require a strictly later end date -/

/-- C8: for the assigned contractor of an existing `in_progress` project
with a current end date `d`, `createExtensionRequest` rejects a requested
end date `t ≤ d` with a `ValidationError` and leaves the store unchanged,
and a call that succeeds had `t` strictly after `d`. -/
theorem createExtensionRequest_requires_later_end_date
    (freshReqId : Id) (user : AuthUser) (pid : Id) (t : Int)
    (reason : Option String) (db : DB) (p : Project) (d : Int)
    (hrole : user.role = .contractor)
    (hfind : findProject db pid = some p)
    (hassigned : p.contractorId = some user.id)
    (hstatus : p.status = .in_progress)
    (hend : p.endDate = some d) :
    (t ≤ d →
      createExtensionRequest freshReqId (some user) (.givenValid pid)
          (.valid t) reason db =
        (db, some (.validation "Requested end date must be after the current project end date"))) ∧
    ((createExtensionRequest freshReqId (some user) (.givenValid pid)
        (.valid t) reason db).snd = none → d < t) := by
  have key : t ≤ d →
      createExtensionRequest freshReqId (some user) (.givenValid pid)
          (.valid t) reason db =
        (db, some (.validation "Requested end date must be after the current project end date")) := by
    intro hle
    unfold createExtensionRequest
    simp [hrole, hfind, hassigned, hstatus, hend, hle]
  refine ⟨key, fun hsucc => ?_⟩
  by_contra hnlt
  rw [key (by omega)] at hsucc
  simp at hsucc

/-- C8 witness: contractor 2 asking to extend project 10 (ends day 5) to
day 2 is rejected with a `ValidationError` and the store is unchanged. -/
theorem createExtensionRequest_requires_later_end_date_app :
    uContractor.role = .contractor ∧
    findProject dbFix 10 = some projFix ∧
    projFix.contractorId = some uContractor.id ∧
    projFix.status = .in_progress ∧
    projFix.endDate = some (5 * msPerDay) ∧
    ((2 * msPerDay ≤ 5 * msPerDay →
      createExtensionRequest 31 (some uContractor) (.givenValid 10)
          (.valid (2 * msPerDay)) none dbFix =
        (dbFix, some (.validation "Requested end date must be after the current project end date"))) ∧
    ((createExtensionRequest 31 (some uContractor) (.givenValid 10)
        (.valid (2 * msPerDay)) none dbFix).snd = none → 5 * msPerDay < 2 * msPerDay)) :=
  ⟨rfl, rfl, rfl, rfl, rfl,
    createExtensionRequest_requires_later_end_date 31 uContractor 10
      (2 * msPerDay) none dbFix projFix (5 * msPerDay) rfl rfl rfl rfl rfl⟩

/-! ### C4: approval and rejection outcomes on the project -/

/-- C4: approving a pending completion request sets the project status to
`completed`; rejecting one restores `in_progress` exactly when the status
had drifted away from `in_progress` (otherwise the projects collection is
untouched); rejecting an extension request never touches the projects
collection. -/
theorem approve_reject_project_outcomes
    (now : Int) (user : AuthUser) (reqId : Id) (aed : DateInput)
    (notes : Option String) (db : DB) (r : ProjectRequest) (p : Project)
    (hrole : user.role = .admin)
    (hfindr : findRequest db reqId = some r)
    (hpend : r.status = .pending)
    (hfindp : findProject db r.projectId = some p) :
    (r.type = .completion →
      (approveRequest none now (some user) reqId aed notes db).snd = none ∧
      findProject (approveRequest none now (some user) reqId aed notes db).fst
          r.projectId = some { p with status := .completed }) ∧
    (r.type = .completion → p.status ≠ .in_progress →
      findProject (rejectRequest now (some user) reqId notes db).fst
          r.projectId = some { p with status := .in_progress }) ∧
    (r.type = .completion → p.status = .in_progress →
      (rejectRequest now (some user) reqId notes db).fst.projects = db.projects) ∧
    (r.type = .extension →
      (rejectRequest now (some user) reqId notes db).fst.projects = db.projects) := by
  have hfindp' : db.projects.find? (fun q => q.id == r.projectId) = some p := hfindp
  have hpid : p.id = r.projectId := by
    have h := List.find?_some hfindp'
    simpa using h
  have hsome : (db.projects.find? (fun q => q.id == r.projectId)).isSome = true := by
    rw [hfindp']; rfl
  refine ⟨?_, ?_, ?_, ?_⟩
  · intro htype
    have happrove : approveRequest none now (some user) reqId aed notes db =
        (saveRequest (saveProject db { p with status := .completed })
          { r with
            status := .approved
            reviewedBy := some user.id
            reviewedAt := some now
            adminNotes := (match notes with
              | some s => some s
              | none => r.adminNotes) }, none) := by
      unfold approveRequest
      rw [hfindr]
      simp [hrole, hpend, hfindp, htype]
    rw [happrove]
    refine ⟨rfl, ?_⟩
    show (saveProject db { p with status := .completed }).projects.find?
        (fun q => q.id == r.projectId) = some { p with status := .completed }
    exact find?_map_replace Project.id { p with status := .completed }
      r.projectId hpid db.projects hsome
  · intro htype hdrift
    have hreject : rejectRequest now (some user) reqId notes db =
        (saveRequest (saveProject db { p with status := .in_progress })
          { r with
            status := .rejected
            reviewedBy := some user.id
            reviewedAt := some now
            adminNotes := (match notes with
              | some s => some s
              | none => r.adminNotes) }, none) := by
      unfold rejectRequest
      rw [hfindr]
      simp [hrole, hpend, hfindp, htype, hdrift]
    rw [hreject]
    show (saveProject db { p with status := .in_progress }).projects.find?
        (fun q => q.id == r.projectId) = some { p with status := .in_progress }
    exact find?_map_replace Project.id { p with status := .in_progress }
      r.projectId hpid db.projects hsome
  · intro htype hsame
    unfold rejectRequest
    rw [hfindr]
    simp [hrole, hpend, hfindp, htype, hsame, saveRequest]
  · intro htype
    unfold rejectRequest
    rw [hfindr]
    simp [hrole, hpend, hfindp, htype, saveRequest]

/-- Project 10 with a drifted status (`on_hold`). -/
def projHold : Project := { projFix with status := .on_hold }

/-- `dbFix` with the drifted project and the pending completion request. -/
def dbHoldPending : DB :=
  { dbFix with projects := [projHold], requests := [reqFix] }

/-- C4 witness: on the drifted fixture, approving request 30 completes
project 10 and rejecting it restores `in_progress`. -/
theorem approve_reject_project_outcomes_app :
    (approveRequest none 999 (some uAdmin) 30 .absent none dbHoldPending).snd = none ∧
    findProject (approveRequest none 999 (some uAdmin) 30 .absent none dbHoldPending).fst
        reqFix.projectId = some { projHold with status := .completed } ∧
    findProject (rejectRequest 999 (some uAdmin) 30 none dbHoldPending).fst
        reqFix.projectId = some { projHold with status := .in_progress } :=
  have A := approve_reject_project_outcomes 999 uAdmin 30 .absent none
    dbHoldPending reqFix projHold rfl rfl rfl rfl
  ⟨(A.1 rfl).1, (A.1 rfl).2, A.2.1 rfl (by decide)⟩

/-! ### C6: direct status writes and pending requests -/

/-- Replacing a document whose id is the one searched for makes it the
document found. -/
theorem findProject_saveProject (db : DB) (x : Project) (pid : Id)
    (hx : x.id = pid)
    (hsome : (db.projects.find? (fun q => q.id == pid)).isSome = true) :
    findProject (saveProject db x) pid = some x :=
  find?_map_replace Project.id x pid hx db.projects hsome

/-- Status projection of the document found after a replacing save. -/
theorem map_status_findProject_saveProject (db : DB) (x : Project)
    (pid : Id) (st : ProjectStatus) (hx : x.id = pid)
    (hsome : (db.projects.find? (fun q => q.id == pid)).isSome = true)
    (hst : x.status = st) :
    (findProject (saveProject db x) pid).map (fun q => q.status) = some st := by
  rw [findProject_saveProject db x pid hx hsome]
  simp [hst]

/-- An update-project body that only supplies a status. -/
def bodyStatusOnly (s : ProjectStatus) : ProjectBody :=
  { name := none, description := none, contractorId := none
    status := some s, startDate := none, endDate := none
    budget := none, location := none }

/-- C6 counterexample: with completion request 30 pending on project 10,
`updateProject` with a `status` field equal to the stored status
(`in_progress`) succeeds — the guard only fires when the supplied status
differs from the stored one, so this status-carrying write is accepted
while a pending request exists. -/
theorem updateProject_same_status_write_accepted_while_pending :
    hasPendingRequests dbFixPending 10 = true ∧
    (bodyStatusOnly .in_progress).status.isSome = true ∧
    (updateProject (some uAdmin) 10 (bodyStatusOnly .in_progress) dbFixPending).snd = none :=
  ⟨rfl, rfl, rfl⟩

/-- C6 (amended): while a pending request exists, `updateProject` rejects
any supplied status that differs from the stored one with a
`ValidationError` (leaving the store unchanged), and no `updateProject`
call changes the project's status — a supplied status equal to the stored
one is accepted but writes the same value. -/
theorem updateProject_status_frozen_while_pending
    (user : Option AuthUser) (pid : Id) (body : ProjectBody) (db : DB)
    (p : Project)
    (hfind : findProject db pid = some p)
    (hpend : hasPendingRequests db pid = true) :
    (∀ s, body.status = some s → s ≠ p.status →
      updateProject user pid body db =
        (db, some (.validation "Cannot change project status while there are pending requests"))) ∧
    (findProject (updateProject user pid body db).fst pid).map
        (fun q => q.status) = some p.status := by
  have hfind' : db.projects.find? (fun q => q.id == pid) = some p := hfind
  have hpid : p.id = pid := by simpa using List.find?_some hfind'
  have hsome : (db.projects.find? (fun q => q.id == pid)).isSome = true := by
    rw [hfind']; rfl
  constructor
  · intro s hs hneq
    unfold updateProject
    simp only [hfind]
    simp [hs, hneq, hpend]
  · unfold updateProject
    simp only [hfind]
    split
    · simp [hfind]
    · split
      · simp [hfind]
      · split
        · simp [hfind]
        · rename_i hcond hc2 hc3
          apply map_status_findProject_saveProject
          · exact hpid
          · exact hsome
          · simp only [hpend, Bool.and_true] at hcond
            cases hbs : body.status with
            | none => simp [hbs]
            | some s =>
              rw [hbs] at hcond
              simp only [decide_eq_true_eq] at hcond
              have : s = p.status := by
                by_contra hne
                exact hcond (by simp [hne])
              simp [hbs, this]

/-- C6 witness: on the pending fixture, supplying `on_hold` is rejected
with a `ValidationError` and the stored status stays `in_progress`. -/
theorem updateProject_status_frozen_while_pending_app :
    findProject dbFixPending 10 = some projFix ∧
    hasPendingRequests dbFixPending 10 = true ∧
    ((∀ s, (bodyStatusOnly .on_hold).status = some s → s ≠ projFix.status →
      updateProject (some uAdmin) 10 (bodyStatusOnly .on_hold) dbFixPending =
        (dbFixPending, some (.validation "Cannot change project status while there are pending requests"))) ∧
    (findProject (updateProject (some uAdmin) 10 (bodyStatusOnly .on_hold) dbFixPending).fst 10).map
        (fun q => q.status) = some projFix.status) :=
  ⟨rfl, rfl, updateProject_status_frozen_while_pending (some uAdmin) 10
    (bodyStatusOnly .on_hold) dbFixPending projFix rfl rfl⟩

/-! ### C7: member-role visibility -/

/-- C7: a member-role caller only ever receives projects reachable via a
team listing them: (i) every project returned by `getAllProjects` has a
team of the project containing the caller; (ii) `getProjectById` for a
project with no such team yields `NotFoundError("Project")`; (iii) a
nonexistent project id yields the same error value, so the two cases are
indistinguishable. -/
theorem member_visibility
    (u : AuthUser) (q : GetProjectsQuery) (db : DB) (pid : Id)
    (hrole : u.role = .member) :
    (∀ ps, getAllProjects (some u) q db = .ok ps →
      ∀ p ∈ ps, ∃ t ∈ db.teams, t.projectId = p.id ∧ u.id ∈ t.members) ∧
    (db.teams.find? (fun t => t.projectId == pid && t.members.contains u.id) = none →
      getProjectById (some u) pid db = .error (.notFound "Project")) ∧
    (findProject db pid = none →
      getProjectById (some u) pid db = .error (.notFound "Project")) := by
  refine ⟨?_, ?_, ?_⟩
  · intro ps hps p hp
    unfold getAllProjects at hps
    simp [hrole] at hps
    split at hps
    · simp only [Except.ok.injEq] at hps
      subst hps
      simp at hp
    · simp only [Except.ok.injEq] at hps
      subst hps
      have h1 := (List.take_subset _ _) hp
      have h2 := (List.drop_subset _ _) h1
      have h3 := List.mem_filter.mp h2
      have hmatch := h3.2
      simp [projectMatches] at hmatch
      obtain ⟨-, t, ⟨htm, htu⟩, htp⟩ := hmatch
      exact ⟨t, htm, htp, htu⟩
  · intro ht
    unfold getProjectById
    cases hp : findProject db pid with
    | none => rfl
    | some project =>
      simp [hrole, ht]
      intro x hx hxp
      have h5 := List.find?_eq_none.mp ht x hx
      simp [hxp] at h5
      simpa using h5
  · intro hp
    unfold getProjectById
    rw [hp]

def uMember : AuthUser := { id := 5, role := .member }

def teamFix : Team := { id := 20, projectId := 10, contractorId := 2, members := [5] }

def dbTeam : DB := { dbFix with teams := [teamFix] }

def qNone : GetProjectsQuery :=
  { status := none, contractorId := none, adminId := none, page := none, limit := none }

/-- C7 witness: the visibility theorem applied to member 5 and the
nonexistent project id 99 on the one-team fixture. -/
theorem member_visibility_app :
    uMember.role = .member ∧
    ((∀ ps, getAllProjects (some uMember) qNone dbTeam = .ok ps →
      ∀ p ∈ ps, ∃ t ∈ dbTeam.teams, t.projectId = p.id ∧ uMember.id ∈ t.members) ∧
    (dbTeam.teams.find? (fun t => t.projectId == 99 && t.members.contains uMember.id) = none →
      getProjectById (some uMember) 99 dbTeam = .error (.notFound "Project")) ∧
    (findProject dbTeam 99 = none →
      getProjectById (some uMember) 99 dbTeam = .error (.notFound "Project"))) :=
  ⟨rfl, member_visibility uMember qNone dbTeam 99 rfl⟩

/-! ### C10: contractor scoping of `getRequests` -/

def qReqBase : GetRequestsQuery :=
  { projectId := .absent, status := none, type := none
    requestedBy := .absent, page := none, limit := none }

/-- C10 counterexample: two `getRequests` calls by the same contractor
differing only in the `requestedBy` query parameter do not always return
the same result — a syntactically invalid `requestedBy` is rejected with
a `ValidationError` before the contractor override ignores it, while an
absent one succeeds. -/
theorem getRequests_invalid_requestedBy_detectable :
    getRequests (some uContractor)
        { qReqBase with requestedBy := .givenInvalid } dbFix =
      .error (.validation "Invalid requested by user ID format") ∧
    getRequests (some uContractor)
        { qReqBase with requestedBy := .absent } dbFix = .ok [] ∧
    (Except.error (ApiError.validation "Invalid requested by user ID format") ≠
      (Except.ok [] : Except ApiError (List ProjectRequest))) :=
  ⟨rfl, rfl, by simp⟩

/-- C10 (amended): for a contractor caller, every request returned by
`getRequests` was requested by the caller, and the `requestedBy` filter
value is ignored when syntactically valid — supplying a valid id gives
the same result as supplying none; only a malformed id still fails the
format validation. -/
theorem getRequests_contractor_scoped
    (u : AuthUser) (q : GetRequestsQuery) (db : DB)
    (hrole : u.role = .contractor) :
    (∀ rs, getRequests (some u) q db = .ok rs →
      ∀ r ∈ rs, r.requestedBy = u.id) ∧
    (∀ v, getRequests (some u) { q with requestedBy := .givenValid v } db =
      getRequests (some u) { q with requestedBy := .absent } db) := by
  constructor
  · intro rs hrs r hr
    unfold getRequests at hrs
    split at hrs
    · simp at hrs
    · split at hrs
      · simp at hrs
      · simp [hrole] at hrs
        subst hrs
        have h1 := (List.take_subset _ _) hr
        have h2 := (List.drop_subset _ _) h1
        have h3 := List.mem_filter.mp h2
        have hmatch := h3.2
        simp [requestMatches] at hmatch
        exact hmatch.2
  · intro v
    unfold getRequests
    cases hpi : q.projectId <;> simp [hrole]

/-- C10 witness: the scoping theorem applied to contractor 2 on the
pending-request fixture. -/
theorem getRequests_contractor_scoped_app :
    uContractor.role = .contractor ∧
    ((∀ rs, getRequests (some uContractor) qReqBase dbFixPending = .ok rs →
      ∀ r ∈ rs, r.requestedBy = uContractor.id) ∧
    (∀ v, getRequests (some uContractor)
        { qReqBase with requestedBy := .givenValid v } dbFixPending =
      getRequests (some uContractor)
        { qReqBase with requestedBy := .absent } dbFixPending)) :=
  ⟨rfl, getRequests_contractor_scoped uContractor qReqBase dbFixPending rfl⟩

/-! ### C5: approveRequest write ordering -/

/-- C5 counterexample: approving pending completion request 30 with a
storage failure at the request save persists the project mutation
(status `completed`) while the request is still `pending` — exactly one
of the two related writes is persisted, and the project side-effect
became visible before the request's terminal state was recorded. -/
theorem approveRequest_partial_failure_leaves_project_only :
    (approveRequest (some .requestSave) 999 (some uAdmin) 30 .absent none dbFixPending).snd =
      some (.internal "request save failed") ∧
    (findProject (approveRequest (some .requestSave) 999 (some uAdmin) 30
        .absent none dbFixPending).fst 10).map (fun p => p.status) =
      some .completed ∧
    (findRequest (approveRequest (some .requestSave) 999 (some uAdmin) 30
        .absent none dbFixPending).fst 30).map (fun r => r.status) =
      some .pending :=
  ⟨rfl, rfl, rfl⟩

/-- C5 (amended): `approveRequest` performs `project.save()` before
`request.save()` with no transaction: a failure at the project save
leaves the store unchanged, while a failure at the request save leaves
the project mutated (status `completed` for a completion request) with
the request still `pending` — so a partial failure can persist exactly
one of the two mutations, and the project side-effect becomes visible
before the request's terminal state. -/
theorem approveRequest_project_saved_first
    (now : Int) (user : AuthUser) (reqId : Id) (aed : DateInput)
    (notes : Option String) (db : DB) (r : ProjectRequest) (p : Project)
    (hrole : user.role = .admin)
    (hfindr : findRequest db reqId = some r)
    (hpend : r.status = .pending)
    (hfindp : findProject db r.projectId = some p)
    (htype : r.type = .completion) :
    (approveRequest (some .projectSave) now (some user) reqId aed notes db =
      (db, some (.internal "project save failed"))) ∧
    (approveRequest (some .requestSave) now (some user) reqId aed notes db =
      (saveProject db { p with status := .completed },
        some (.internal "request save failed"))) ∧
    findRequest (approveRequest (some .requestSave) now (some user) reqId
        aed notes db).fst reqId = some r ∧
    findProject (approveRequest (some .requestSave) now (some user) reqId
        aed notes db).fst r.projectId = some { p with status := .completed } := by
  have hfindp' : db.projects.find? (fun q => q.id == r.projectId) = some p := hfindp
  have hpid : p.id = r.projectId := by simpa using List.find?_some hfindp'
  have hsome : (db.projects.find? (fun q => q.id == r.projectId)).isSome = true := by
    rw [hfindp']; rfl
  have hfail1 : approveRequest (some .projectSave) now (some user) reqId aed notes db =
      (db, some (.internal "project save failed")) := by
    unfold approveRequest
    rw [hfindr]
    simp [hrole, hpend, hfindp, htype]
  have hfail2 : approveRequest (some .requestSave) now (some user) reqId aed notes db =
      (saveProject db { p with status := .completed },
        some (.internal "request save failed")) := by
    unfold approveRequest
    rw [hfindr]
    simp [hrole, hpend, hfindp, htype]
  refine ⟨hfail1, hfail2, ?_, ?_⟩
  · rw [hfail2]
    exact hfindr
  · rw [hfail2]
    exact findProject_saveProject db _ r.projectId hpid hsome

/-- C5 witness: the ordering theorem applied to request 30 on the pending
fixture. -/
theorem approveRequest_project_saved_first_app :
    uAdmin.role = .admin ∧
    findRequest dbFixPending 30 = some reqFix ∧
    reqFix.status = .pending ∧
    findProject dbFixPending reqFix.projectId = some projFix ∧
    reqFix.type = .completion ∧
    ((approveRequest (some .projectSave) 999 (some uAdmin) 30 .absent none dbFixPending =
      (dbFixPending, some (.internal "project save failed"))) ∧
    (approveRequest (some .requestSave) 999 (some uAdmin) 30 .absent none dbFixPending =
      (saveProject dbFixPending { projFix with status := .completed },
        some (.internal "request save failed"))) ∧
    findRequest (approveRequest (some .requestSave) 999 (some uAdmin) 30
        .absent none dbFixPending).fst 30 = some reqFix ∧
    findProject (approveRequest (some .requestSave) 999 (some uAdmin) 30
        .absent none dbFixPending).fst reqFix.projectId =
      some { projFix with status := .completed }) :=
  ⟨rfl, rfl, rfl, rfl, rfl,
    approveRequest_project_saved_first 999 uAdmin 30 .absent none
      dbFixPending reqFix projFix rfl rfl rfl rfl rfl⟩

/-! ### C2: the derived-presence invariant -/

/-- The pre-save hook makes any saved attendance document satisfy the
presence predicate. -/
theorem preSave_pred (tz : Int) (x : Attendance) :
    ((attendancePreSave tz x).isPresent ==
      ((attendancePreSave tz x).morningUpdateId.isSome &&
        (attendancePreSave tz x).eveningUpdateId.isSome)) = true := by
  simp [attendancePreSave]

/-- The pre-save hook does not change the document id. -/
theorem preSave_id (tz : Int) (x : Attendance) :
    (attendancePreSave tz x).id = x.id := rfl

/-- Saving a hook-consistent document yields an invariant store when
every record it does not replace already satisfies the predicate. -/
theorem attPresentInv_save_cover (X : DB) (h : Attendance)
    (hpred : (h.isPresent ==
      (h.morningUpdateId.isSome && h.eveningUpdateId.isSome)) = true)
    (hcov : ∀ q ∈ X.attendances,
      (q.isPresent == (q.morningUpdateId.isSome && q.eveningUpdateId.isSome)) = true ∨
        q.id = h.id) :
    attPresentInv (saveAttendanceDoc X h) = true := by
  unfold attPresentInv saveAttendanceDoc
  rw [List.all_eq_true]
  intro y hy
  obtain ⟨q, hq, rfl⟩ := List.mem_map.mp hy
  by_cases hid : (q.id == h.id) = true
  · rw [if_pos hid]
    exact hpred
  · rw [if_neg hid]
    rcases hcov q hq with h1 | h1
    · exact h1
    · exact absurd (beq_iff_eq.mpr h1) hid

/-- A derivation that returns no error leaves an invariant-satisfying
store: the final `save` replaced the only record the upsert could have
made inconsistent. -/
theorem deriveAttendance_ok_inv (tz : Int) (fa uid pid : Id) (d : Int)
    (ut : UpdateType) (updId : Id) (db db2 : DB)
    (hinv : attPresentInv db = true)
    (h : deriveAttendance tz fa uid pid d ut updId db = (db2, none)) :
    attPresentInv db2 = true := by
  unfold deriveAttendance at h
  split at h
  · -- found-record case: the store already holds the upserted document
    rename_i a heq
    dsimp only at h
    split at h
    · simp at h
    · simp only [Prod.mk.injEq] at h
      obtain ⟨h1, -⟩ := h
      subst h1
      apply attPresentInv_save_cover
      · exact preSave_pred tz _
      · intro q hq
        obtain ⟨q0, hq0, rfl⟩ := List.mem_map.mp hq
        by_cases hid : (q0.id == (upsertDoc uid pid d ut updId a).id) = true
        · right
          rw [if_pos hid]
          exact (preSave_id tz _).symm
        · left
          rw [if_neg hid]
          exact (List.all_eq_true.mp hinv) q0 hq0
  · -- no-record case: the inserted document is the replaced one
    dsimp only at h
    split at h
    · simp at h
    · simp only [Prod.mk.injEq] at h
      obtain ⟨h1, -⟩ := h
      subst h1
      apply attPresentInv_save_cover
      · exact preSave_pred tz _
      · intro q hq
        rcases List.mem_append.mp hq with hq | hq
        · left
          exact (List.all_eq_true.mp hinv) q hq
        · right
          rw [List.mem_singleton] at hq
          subst hq
          exact (preSave_id tz _).symm

/-- A successful insert only appends to the updates ledger. -/
theorem insertUpdate_ok_shape (db : DB) (u : Update) (db1 : DB)
    (h : insertUpdate db u = .ok db1) :
    db1 = { db with updates := db.updates ++ [u] } := by
  unfold insertUpdate at h
  split at h
  · simp at h
  · simpa using h.symm

/-- C2 counterexample data: a morning update for day 0 already posted. -/
def mornUpdFix : Update :=
  { id := 60, projectId := 10, contractorId := 2, postedBy := 2
    updateType := .morning, statusText := "ok", updateDate := 0
    timestamp := 0, docCount := 1 }

/-- An attendance record the local-time hook moved to -7200000 (a UTC+2
server), morning half set. -/
def attMoved : Attendance :=
  { id := 1, userId := 2, projectId := 10, date := -7200000
    morningUpdateId := some 50, eveningUpdateId := none, isPresent := false }

/-- The attendance record at the UTC-midnight key 0 for the posted
morning update. -/
def attToday : Attendance :=
  { id := 2, userId := 2, projectId := 10, date := 0
    morningUpdateId := some 60, eveningUpdateId := none, isPresent := false }

/-- A store on a UTC+2 server where the evening update's attendance save
will collide: every record satisfies the presence invariant. -/
def dbTzBug : DB :=
  { dbFix with updates := [mornUpdFix], attendances := [attMoved, attToday] }

/-- An evening-update body for project 10 on day 0. -/
def bodyEvening : CreateUpdateBody :=
  { projectId := .givenValid 10, updateType := .valid .evening
    statusText := "ok", updateDate := .valid 0, docs := some 1 }

/-- C2 counterexample: on a UTC+2 server (offset 7200000 ms), an evening
`createUpdate` into an invariant-satisfying store fails at
`attendance.save()` with a duplicate-key error, and the persisted upsert
half-write leaves a record with both halves set and `isPresent = false`:
the invariant does not survive every completed operation. -/
theorem attendance_invariant_broken_on_failed_save :
    attPresentInv dbTzBug = true ∧
    (createUpdate 7200000 5 101 201 (some uContractor) bodyEvening dbTzBug).snd =
      some (.duplicateKey "userId") ∧
    attPresentInv
      (createUpdate 7200000 5 101 201 (some uContractor) bodyEvening dbTzBug).fst =
      false :=
  ⟨rfl, rfl, rfl⟩

/-- C2 (amended): every `createUpdate` that completes successfully
preserves `isPresent = (morningUpdateId set ∧ eveningUpdateId set)` for
every attendance record, and no other handler writes the attendance
collection at all; only a `createUpdate` failing at the attendance save
can leave the upserted record inconsistent. -/
theorem attendance_isPresent_iff_both_halves
    (tz now : Int) (fu fa : Id) (user : Option AuthUser)
    (body : CreateUpdateBody) (db : DB)
    (hinv : attPresentInv db = true) :
    (∀ db2, createUpdate tz now fu fa user body db = (db2, none) →
      attPresentInv db2 = true) ∧
    (∀ failAt u2 rid aed notes,
      (approveRequest failAt now u2 rid aed notes db).fst.attendances = db.attendances) ∧
    (∀ u2 rid notes,
      (rejectRequest now u2 rid notes db).fst.attendances = db.attendances) ∧
    (∀ u2 pid b, (updateProject u2 pid b db).fst.attendances = db.attendances) ∧
    (∀ fr u2 pidIn rsn,
      (createCompletionRequest fr u2 pidIn rsn db).fst.attendances = db.attendances) ∧
    (∀ fr u2 pidIn red rsn,
      (createExtensionRequest fr u2 pidIn red rsn db).fst.attendances = db.attendances) ∧
    (∀ fp u2 b, (createProject fp u2 b db).fst.attendances = db.attendances) := by
  refine ⟨?_, ?_, ?_, ?_, ?_, ?_, ?_⟩
  · intro db2 h
    unfold createUpdate at h
    repeat' (first | split at h | dsimp only at h)
    all_goals try (rw [Prod.mk.injEq] at h; exact absurd h.2 (Option.some_ne_none _))
    all_goals
      rename_i heq
      have hshape := insertUpdate_ok_shape db _ _ heq
      subst hshape
      refine deriveAttendance_ok_inv tz fa _ _ _ _ fu _ db2 ?_ h
      exact hinv
  · intro failAt u2 rid aed notes
    unfold approveRequest
    repeat' split
    all_goals try rfl
    all_goals (dsimp only; repeat' split)
    all_goals rfl
  · intro u2 rid notes
    unfold rejectRequest
    repeat' split
    all_goals rfl
  · intro u2 pid b
    unfold updateProject
    repeat' split
    all_goals rfl
  · intro fr u2 pidIn rsn
    unfold createCompletionRequest
    repeat' split
    all_goals rfl
  · intro fr u2 pidIn red rsn
    unfold createExtensionRequest
    repeat' split
    all_goals rfl
  · intro fp u2 b
    unfold createProject
    repeat' split
    all_goals rfl

/-- A valid morning-update body for project 10 on day 0. -/
def bodyMorning : CreateUpdateBody :=
  { projectId := .givenValid 10, updateType := .valid .morning
    statusText := "ok", updateDate := .valid 0, docs := some 1 }

/-- C2 witness: the invariant theorem applied to contractor 2 posting a
morning update on the fixture, and to each non-attendance handler at a
concrete input. -/
theorem attendance_isPresent_iff_both_halves_app :
    attPresentInv dbFix = true ∧
    attPresentInv (createUpdate 0 0 100 200 (some uContractor) bodyMorning dbFix).fst = true ∧
    (approveRequest none 0 (some uAdmin) 30 .absent none dbFix).fst.attendances =
      dbFix.attendances ∧
    (rejectRequest 0 (some uAdmin) 30 none dbFix).fst.attendances = dbFix.attendances ∧
    (updateProject (some uAdmin) 10 (bodyStatusOnly .on_hold) dbFix).fst.attendances =
      dbFix.attendances ∧
    (createCompletionRequest 31 (some uContractor) (.givenValid 10) none dbFix).fst.attendances =
      dbFix.attendances ∧
    (createExtensionRequest 31 (some uContractor) (.givenValid 10)
        (.valid (9 * msPerDay)) none dbFix).fst.attendances = dbFix.attendances ∧
    (createProject 11 (some uAdmin) bodyInProgress dbFix).fst.attendances =
      dbFix.attendances :=
  have A := attendance_isPresent_iff_both_halves 0 0 100 200
    (some uContractor) bodyMorning dbFix rfl
  ⟨rfl, A.1 (createUpdate 0 0 100 200 (some uContractor) bodyMorning dbFix).fst rfl,
    A.2.1 none (some uAdmin) 30 .absent none,
    A.2.2.1 (some uAdmin) 30 none,
    A.2.2.2.1 (some uAdmin) 10 (bodyStatusOnly .on_hold),
    A.2.2.2.2.1 31 (some uContractor) (.givenValid 10) none,
    A.2.2.2.2.2.1 31 (some uContractor) (.givenValid 10) (.valid (9 * msPerDay)) none,
    A.2.2.2.2.2.2 11 (some uAdmin) bodyInProgress⟩

/-! ### C1: duplicate daily updates -/

/-- The update document `createUpdate` inserts. -/
def postedUpdate (fu pid cid uid : Id) (ut : UpdateType) (st : String)
    (nd ts : Int) (n : Nat) : Update :=
  { id := fu, projectId := pid, contractorId := cid, postedBy := uid
    updateType := ut, statusText := st, updateDate := nd, timestamp := ts
    docCount := n }

/-- The attendance derivation never touches the other collections. -/
theorem deriveAttendance_preserves (tz : Int) (fa uid pid : Id) (d : Int)
    (ut : UpdateType) (updId : Id) (db : DB) :
    (deriveAttendance tz fa uid pid d ut updId db).fst.projects = db.projects ∧
    (deriveAttendance tz fa uid pid d ut updId db).fst.teams = db.teams ∧
    (deriveAttendance tz fa uid pid d ut updId db).fst.updates = db.updates := by
  unfold deriveAttendance
  split
  all_goals dsimp only
  all_goals split
  all_goals exact ⟨rfl, rfl, rfl⟩

/-- The hooked upserted document keeps the keyed user id. -/
theorem upsert_hook_userId (tz : Int) (uid pid : Id) (d : Int)
    (ut : UpdateType) (updId : Id) (a : Attendance) :
    (attendancePreSave tz (upsertDoc uid pid d ut updId a)).userId = uid := by
  cases ut <;> rfl

/-- The hooked upserted document keeps the keyed project id. -/
theorem upsert_hook_projectId (tz : Int) (uid pid : Id) (d : Int)
    (ut : UpdateType) (updId : Id) (a : Attendance) :
    (attendancePreSave tz (upsertDoc uid pid d ut updId a)).projectId = pid := by
  cases ut <;> rfl

/-- When the store holds no attendance record at all for the user and
project, the derivation's save cannot collide with the unique index, for
every server timezone offset. -/
theorem deriveAttendance_no_prior (tz : Int) (fa uid pid : Id) (d : Int)
    (ut : UpdateType) (updId : Id) (db : DB)
    (hnoatt : ∀ a ∈ db.attendances, ¬(a.userId = uid ∧ a.projectId = pid)) :
    (deriveAttendance tz fa uid pid d ut updId db).snd = none := by
  have hfind : db.attendances.find? (attKeyMatches uid pid d) = none := by
    rw [List.find?_eq_none]
    intro a ha hk
    unfold attKeyMatches at hk
    simp only [Bool.and_eq_true, beq_iff_eq] at hk
    exact hnoatt a ha ⟨hk.1.1, hk.1.2⟩
  unfold deriveAttendance
  rw [hfind]
  dsimp only
  split
  · rename_i hany
    exfalso
    rw [List.any_eq_true] at hany
    obtain ⟨q, hq, hqq⟩ := hany
    rw [Bool.and_eq_true] at hqq
    obtain ⟨hne, hkey⟩ := hqq
    rcases List.mem_append.mp hq with hq | hq
    · unfold attKeyMatches at hkey
      simp only [Bool.and_eq_true, beq_iff_eq] at hkey
      refine hnoatt q hq ⟨?_, ?_⟩
      · rw [hkey.1.1, upsert_hook_userId]
      · rw [hkey.1.2, upsert_hook_projectId]
    · rw [List.mem_singleton] at hq
      subst hq
      simp at hne
  · rfl

/-- Team membership only reads the projects and teams collections. -/
theorem isUserInProjectTeam_eq (db1 db2 : DB) (uid pid : Id)
    (hp : db1.projects = db2.projects) (ht : db1.teams = db2.teams) :
    isUserInProjectTeam db1 uid pid = isUserInProjectTeam db2 uid pid := by
  unfold isUserInProjectTeam findProject
  rw [hp, ht]

/-- C1 counterexample: the same contractor posting the same morning
update for project 10 on the same day twice in sequence: the first call
succeeds, the second fails — but with a 400 `ValidationError` from the
duplicate pre-check, not a 409 duplicate-key conflict. -/
theorem duplicate_update_sequential_is_400 :
    (createUpdate 0 0 100 200 (some uContractor) bodyMorning dbFix).snd = none ∧
    (createUpdate 0 5 101 201 (some uContractor) bodyMorning
        (createUpdate 0 0 100 200 (some uContractor) bodyMorning dbFix).fst).snd =
      some (.validation "You have already posted this update type for this project today") ∧
    (ApiError.validation
        "You have already posted this update type for this project today").statusCode = 400 ∧
    (400 : Nat) ≠ 409 :=
  ⟨rfl, rfl, rfl, by decide⟩

/-- C1 (amended): of two sequential `createUpdate` calls with the same
`(postedBy, projectId, updateDate-day, updateType)`, exactly one
succeeds: the first inserts the update, and the second is rejected by the
duplicate pre-check with a 400 `ValidationError`; the 409 duplicate-key
conflict is produced by the unique index at the insert itself, which
rejects any second document with the same key (the path a concurrent
racer that passes the pre-check would hit). -/
theorem createUpdate_duplicate_day_unique
    (tz now now2 : Int) (fu fa fu2 fa2 : Id) (u : AuthUser)
    (pid cid : Id) (ut : UpdateType) (st : String) (t : Int) (n : Nat)
    (db : DB) (project : Project)
    (hst : st ≠ "")
    (hfind : findProject db pid = some project)
    (hstatus : project.status = .in_progress)
    (hteam : isUserInProjectTeam db u.id pid = .ok (true, some cid))
    (hnodup : db.updates.any (updateKeyMatches u.id pid (normalizeDate t) ut) = false)
    (hnoatt : ∀ a ∈ db.attendances, ¬(a.userId = u.id ∧ a.projectId = pid))
    (hn : 0 < n)
    (db1 : DB)
    (hp : db1.projects = db.projects)
    (htm : db1.teams = db.teams)
    (hu : db1.updates = db.updates ++
      [postedUpdate fu pid cid u.id ut st (normalizeDate t) now n]) :
    ((createUpdate tz now fu fa (some u)
        { projectId := .givenValid pid, updateType := .valid ut
          statusText := st, updateDate := .valid t, docs := some n } db).snd = none ∧
      (createUpdate tz now fu fa (some u)
        { projectId := .givenValid pid, updateType := .valid ut
          statusText := st, updateDate := .valid t, docs := some n } db).fst.updates =
        db.updates ++ [postedUpdate fu pid cid u.id ut st (normalizeDate t) now n]) ∧
    (createUpdate tz now2 fu2 fa2 (some u)
        { projectId := .givenValid pid, updateType := .valid ut
          statusText := st, updateDate := .valid t, docs := some n } db1 =
      (db1, some (.validation "You have already posted this update type for this project today"))) ∧
    (∀ u2 : Update, u2.postedBy = u.id → u2.projectId = pid →
      u2.updateDate = normalizeDate t → u2.updateType = ut →
      insertUpdate db1 u2 = .error (.duplicateKey "postedBy") ∧
      (ApiError.duplicateKey "postedBy").statusCode = 409) := by
  have hn' : ¬ n = 0 := by omega
  have hrun1 : createUpdate tz now fu fa (some u)
      { projectId := .givenValid pid, updateType := .valid ut
        statusText := st, updateDate := .valid t, docs := some n } db =
      deriveAttendance tz fa u.id pid (normalizeDate t) ut fu
        { db with updates := db.updates ++
          [postedUpdate fu pid cid u.id ut st (normalizeDate t) now n] } := by
    unfold createUpdate
    simp [hst, hfind, hstatus, hteam, hnodup, hn', insertUpdate, postedUpdate]
  refine ⟨⟨?_, ?_⟩, ?_, ?_⟩
  · rw [hrun1]
    exact deriveAttendance_no_prior tz fa u.id pid (normalizeDate t) ut fu _ hnoatt
  · rw [hrun1]
    exact (deriveAttendance_preserves tz fa u.id pid (normalizeDate t) ut fu _).2.2
  · have hfind1 : findProject db1 pid = some project := by
      unfold findProject
      rw [hp]
      exact hfind
    have hteam1 : isUserInProjectTeam db1 u.id pid = .ok (true, some cid) :=
      (isUserInProjectTeam_eq db1 db u.id pid hp htm).trans hteam
    have hdup1 : db1.updates.any (updateKeyMatches u.id pid (normalizeDate t) ut) = true := by
      rw [hu, List.any_append]
      simp [updateKeyMatches, postedUpdate]
    unfold createUpdate
    simp [hst, hfind1, hstatus, hteam1, hdup1]
  · intro u2 h1 h2 h3 h4
    refine ⟨?_, rfl⟩
    unfold insertUpdate
    have : db1.updates.any
        (updateKeyMatches u2.postedBy u2.projectId u2.updateDate u2.updateType) = true := by
      rw [hu, List.any_append]
      simp [updateKeyMatches, postedUpdate, h1, h2, h3, h4]
    rw [if_pos this]

/-- A racing update document with the same key as the first posted
update of the C1 witness. -/
def updClash : Update :=
  { id := 999, projectId := 10, contractorId := 2, postedBy := 2
    updateType := .morning, statusText := "go", updateDate := 0
    timestamp := 7, docCount := 1 }

/-- C1 witness: the uniqueness theorem applied to contractor 2 posting
twice on day 0, with the racing insert hitting the unique index. -/
theorem createUpdate_duplicate_day_unique_app :
    ("ok" : String) ≠ "" ∧
    findProject dbFix 10 = some projFix ∧
    projFix.status = .in_progress ∧
    isUserInProjectTeam dbFix uContractor.id 10 = .ok (true, some 2) ∧
    dbFix.updates.any (updateKeyMatches uContractor.id 10 (normalizeDate 0) .morning) = false ∧
    (0 : Nat) < 1 ∧
    (createUpdate 0 0 100 200 (some uContractor) bodyMorning dbFix).snd = none ∧
    (createUpdate 0 0 100 200 (some uContractor) bodyMorning dbFix).fst.updates =
      dbFix.updates ++
        [postedUpdate 100 10 2 uContractor.id .morning "ok" (normalizeDate 0) 0 1] ∧
    (createUpdate 0 5 101 201 (some uContractor) bodyMorning
        (createUpdate 0 0 100 200 (some uContractor) bodyMorning dbFix).fst =
      ((createUpdate 0 0 100 200 (some uContractor) bodyMorning dbFix).fst,
        some (.validation "You have already posted this update type for this project today"))) ∧
    insertUpdate (createUpdate 0 0 100 200 (some uContractor) bodyMorning dbFix).fst
        updClash = .error (.duplicateKey "postedBy") :=
  have A := createUpdate_duplicate_day_unique 0 0 5 100 200 101 201 uContractor
    10 2 .morning "ok" 0 1 dbFix projFix (by decide) rfl rfl rfl rfl
    (fun a ha => absurd ha (List.not_mem_nil a)) (by decide)
    (createUpdate 0 0 100 200 (some uContractor) bodyMorning dbFix).fst rfl rfl rfl
  ⟨by decide, rfl, rfl, rfl, rfl, by decide, A.1.1, A.1.2, A.2.1,
    (A.2.2 updClash rfl rfl (by decide) rfl).1⟩

/-! ### C3: attendance derivation keyed at UTC midnight -/

/-- C3: the attendance upsert is keyed at the UTC midnight
`normalizeDate` of the update day, but the model's pre-save hook
(part_007, lines 63-69) re-normalizes with local-time
`setHours(0, 0, 0, 0)`. On a UTC+2 server (offset 7200000 ms) a morning
update for day 0 succeeds but stores its attendance record at
-7200000 instead of the key 0; the evening update for the same day then
misses the record, upserts a second one, and its save throws the
(userId, projectId, date) duplicate-key error (mapped to 409) when the
hook moves it onto the first — the claimed keying, both-halves pairing
and idempotent re-derivation all fail off UTC. -/
theorem attendance_hook_timezone_bug :
    (createUpdate 7200000 0 100 200 (some uContractor) bodyMorning dbFix).snd = none ∧
    normalizeDate 0 = 0 ∧
    ((createUpdate 7200000 0 100 200 (some uContractor) bodyMorning dbFix).fst.attendances.map
        (fun a => a.date)) = [-7200000] ∧
    (createUpdate 7200000 5 101 201 (some uContractor) bodyEvening
        (createUpdate 7200000 0 100 200 (some uContractor) bodyMorning dbFix).fst).snd =
      some (.duplicateKey "userId") ∧
    (ApiError.duplicateKey "userId").statusCode = 409 :=
  ⟨rfl, rfl, rfl, rfl, rfl⟩

end Contractor
